import Mathlib

/-!
Shallow embedding of the pagination, polling, identifier and network-ACL
rule-handling logic of the terraform-provider-ibm sources
(`ibm/service/vpc/data_source_ibm_is_instance_group_managers.go`,
`ibm/service/vpc/resource_ibm_is_networkacls.go`, and the bare-metal-server
network-interface floating-IP resource file), together with proofs of the
specification's testable properties about them.

Modelling conventions used throughout:
* A remote SDK call is modelled by the value it returns; a whole operation
  is a pure function from its inputs and an oracle describing the remote
  responses to its result, plus (where claims need it) a trace of the SDK
  calls it issued.
* Go `error` results are `Except String` / `Option String` (the message);
  the `(response, err)` pair of an SDK call is an `Except ErrResp`, where
  `ErrResp.statusCode = none` models a nil `response` pointer.
* Go strings in the composite-identifier functions are modelled as `List
  Char`, with `splitOnChar` mirroring the semantics of Go `strings.Split`
  for a single-character separator.
-/

set_option autoImplicit false

namespace TfIbm

/-- The `(response, err)` information carried by a failing SDK call:
`statusCode = none` models a nil `*core.DetailedResponse`, otherwise the
HTTP status code, together with the error message. -/
structure ErrResp where
  statusCode : Option Nat
  msg : String
deriving DecidableEq, Repr

/-! ## Paginated listing loops

`dataSourceIBMISInstanceGroupManagersRead` (lines 130-154 of
`data_source_ibm_is_instance_group_managers.go`) and the listing phase of
`clearRules` (lines 852-871 of `resource_ibm_is_networkacls.go`) run the
same loop: fetch a page with the current cursor (`start`, initially `""`),
abort on error, set `start` to the next-cursor extracted by `flex.GetNext`
from the response, append the page's items to the accumulator, and stop
when the cursor is empty.  A fetch outcome is modelled by `PageFetch`: a
failure message, or a page of items plus the next-cursor string (already
passed through `flex.GetNext`, empty meaning no further page). -/

/-- One fetch outcome of a paginated list call. -/
inductive PageFetch (α : Type) where
  | failure (msg : String)
  | page (items : List α) (next : String)
deriving DecidableEq, Repr

/-- The pagination loop, consuming the successive fetch outcomes in order
with accumulator `acc`.  Returns `none` when the supplied outcome sequence
runs out while the loop would still fetch (the oracle underdetermines the
run), otherwise `some` of the loop's result together with the number of
list calls issued.  Mirrors the Go loop body order: check error, read next
cursor, append items, break on empty cursor. -/
def paginateLoop {α : Type} : List (PageFetch α) → List α →
    Option (Except String (List α)) × Nat
  | [], _ => (none, 0)
  | .failure e :: _, _ => (some (.error e), 1)
  | .page items next :: rest, acc =>
    if next = "" then
      (some (.ok (acc ++ items)), 1)
    else
      let r := paginateLoop rest (acc ++ items)
      (r.1, r.2 + 1)

/-- The pagination loop of `dataSourceIBMISInstanceGroupManagersRead`
(lines 130-154), which starts with `allrecs = []`; items are the opaque
`InstanceGroupManagerIntf` records, kept polymorphic. -/
def dataSourceIBMISInstanceGroupManagersRead_pagination {α : Type}
    (fetches : List (PageFetch α)) : Option (Except String (List α)) :=
  (paginateLoop fetches []).1

/-- The listing phase of `clearRules` (lines 852-871), which starts with
`allrecs = []`; items are the network-ACL rule records, kept polymorphic
here (the delete phase below instantiates them with their IDs). -/
def clearRules_pagination {α : Type}
    (fetches : List (PageFetch α)) : Option (Except String (List α)) :=
  (paginateLoop fetches []).1

/-- A fetch-outcome sequence exactly describing a complete, error-free
paginated listing: every outcome is a page, every page before the last
carries a non-empty next-cursor, and the last page's next-cursor is empty
(so the sequence is exactly what the loop consumes). -/
def pagesComplete {α : Type} : List (PageFetch α) → Bool
  | [] => false
  | .failure _ :: _ => false
  | .page _ next :: rest => if next = "" then rest.isEmpty else pagesComplete rest

/-- Every outcome in the list is a successfully fetched page with a
non-empty next-cursor (a "middle" page of a longer listing). -/
def allMidPages {α : Type} : List (PageFetch α) → Bool
  | [] => true
  | .failure _ :: _ => false
  | .page _ next :: rest => if next = "" then false else allMidPages rest

/-- The items of a fetch outcome (a failure carries none). -/
def pageItems {α : Type} : PageFetch α → List α
  | .failure _ => []
  | .page items _ => items

/-- The concatenation of all pages' items in server-returned order: the
result of the single hypothetical unpaginated call. -/
def joinPages {α : Type} (fetches : List (PageFetch α)) : List α :=
  (fetches.map pageItems).flatten

theorem paginateLoop_complete {α : Type} :
    ∀ (fetches : List (PageFetch α)) (acc : List α),
    pagesComplete fetches = true →
    (paginateLoop fetches acc).1 = some (.ok (acc ++ joinPages fetches))
  | [], _, h => by simp [pagesComplete] at h
  | .failure e :: rest, _, h => by simp [pagesComplete] at h
  | .page items next :: rest, acc, h => by
    by_cases hn : next = ""
    · have hrest : rest = [] := by
        simpa [pagesComplete, hn, List.isEmpty_iff] using h
      subst hrest
      simp [paginateLoop, hn, joinPages, pageItems]
    · have hrest : pagesComplete rest = true := by
        simpa [pagesComplete, hn] using h
      have ih := paginateLoop_complete rest (acc ++ items) hrest
      simp only [paginateLoop, hn, if_false, ih, joinPages, pageItems,
        List.map_cons, List.flatten_cons, List.append_assoc]

theorem paginateLoop_error {α : Type} :
    ∀ (pre : List (PageFetch α)) (e : String) (rest : List (PageFetch α))
      (acc : List α),
    allMidPages pre = true →
    (paginateLoop (pre ++ .failure e :: rest) acc).1 = some (.error e)
  | [], e, rest, acc, _ => by simp [paginateLoop]
  | .failure f :: pre, e, rest, acc, h => by simp [allMidPages] at h
  | .page items next :: pre, e, rest, acc, h => by
    have hn : next ≠ "" := by
      intro hc; simp [allMidPages, hc] at h
    have hpre : allMidPages pre = true := by simpa [allMidPages, hn] using h
    have ih := paginateLoop_error pre e rest (acc ++ items) hpre
    simp [paginateLoop, hn, ih]

/-- Claim C1: for every sequence of pages returned by successive fetches in
the instance-group-managers read loop and the `clearRules` listing phase,
the accumulated result is the concatenation of all pages' items in
server-returned order (identical to a single hypothetical unpaginated
call, no deduplication, no reordering); and a first page with zero items
and an empty next-cursor yields the empty sequence, not an error. -/
theorem paginated_listing_concatenates_all_pages :
    (∀ (α : Type) (fetches : List (PageFetch α)), pagesComplete fetches = true →
      dataSourceIBMISInstanceGroupManagersRead_pagination fetches =
        some (.ok (joinPages fetches)) ∧
      clearRules_pagination fetches = some (.ok (joinPages fetches))) ∧
    dataSourceIBMISInstanceGroupManagersRead_pagination
      [PageFetch.page ([] : List Unit) ""] = some (.ok []) ∧
    clearRules_pagination [PageFetch.page ([] : List Unit) ""] =
      some (.ok []) := by
  refine ⟨fun α fetches h => ?_, rfl, rfl⟩
  have := paginateLoop_complete fetches [] h
  exact ⟨by simpa [dataSourceIBMISInstanceGroupManagersRead_pagination] using this,
    by simpa [clearRules_pagination] using this⟩

/-- Witness for C1 at a concrete two-page listing. -/
theorem paginated_listing_concatenates_all_pages_witness :
    pagesComplete [PageFetch.page [10, 20] "cursor1", PageFetch.page [30] ""] = true ∧
    dataSourceIBMISInstanceGroupManagersRead_pagination
      [PageFetch.page [10, 20] "cursor1", PageFetch.page [30] ""] =
      some (.ok [10, 20, 30]) ∧
    clearRules_pagination
      [PageFetch.page [10, 20] "cursor1", PageFetch.page [30] ""] =
      some (.ok [10, 20, 30]) := by
  have h := (paginated_listing_concatenates_all_pages.1 Nat
    [PageFetch.page [10, 20] "cursor1", PageFetch.page [30] ""] (by decide))
  exact ⟨by decide, h.1, h.2⟩

/-- Claim C7: in both paginated listings, if any page fetch fails, the
whole loop aborts immediately with that error; no items accumulated from
earlier pages are returned (the result is the bare error). -/
theorem paginated_listing_aborts_on_page_error :
    ∀ (α : Type) (pre : List (PageFetch α)) (e : String)
      (rest : List (PageFetch α)),
    allMidPages pre = true →
    dataSourceIBMISInstanceGroupManagersRead_pagination (pre ++ .failure e :: rest) =
      some (.error e) ∧
    clearRules_pagination (pre ++ .failure e :: rest) = some (.error e) := by
  intro α pre e rest h
  have := paginateLoop_error pre e rest [] h
  exact ⟨by simpa [dataSourceIBMISInstanceGroupManagersRead_pagination] using this,
    by simpa [clearRules_pagination] using this⟩

/-- Witness for C7: a successful first page followed by a failing fetch
aborts with the error, discarding the first page's items. -/
theorem paginated_listing_aborts_on_page_error_witness :
    allMidPages [PageFetch.page [10, 20] "cursor1"] = true ∧
    dataSourceIBMISInstanceGroupManagersRead_pagination
      ([PageFetch.page [10, 20] "cursor1"] ++ .failure "boom" :: []) =
      some (.error "boom") ∧
    clearRules_pagination
      ([PageFetch.page [10, 20] "cursor1"] ++ .failure "boom" :: []) =
      some (.error "boom") := by
  have h := paginated_listing_aborts_on_page_error Nat
    [PageFetch.page [10, 20] "cursor1"] "boom" [] (by decide)
  exact ⟨by decide, h.1, h.2⟩

/-! ## Composite identifier join/split

`MakeTerraformNICFipID` (part_000 lines 681-685) joins the bare metal
server id, network interface id and floating ip id with `/`;
`ParseNICFipTerraformID` (lines 687-696) splits on `/`, rejecting inputs
whose split does not have exactly 3 segments or has an empty segment.  Go
strings are modelled as `List Char`; `splitOnChar` mirrors
`strings.Split` with a one-character separator. -/

/-- Model of Go `strings.Split(s, string(sep))`: splits `s` at every
occurrence of `sep`; the empty input yields one empty segment. -/
def splitOnChar (sep : Char) : List Char → List (List Char)
  | [] => [[]]
  | c :: rest =>
    if c = sep then
      [] :: splitOnChar sep rest
    else
      match splitOnChar sep rest with
      | [] => [[c]]
      | seg :: segs => (c :: seg) :: segs

/-- Source function `MakeTerraformNICFipID`: joins the three component ids
with `/` (Go `fmt.Sprintf("%s/%s/%s", id1, id2, id3)`). -/
def MakeTerraformNICFipID (id1 id2 id3 : List Char) : List Char :=
  id1 ++ '/' :: id2 ++ '/' :: id3

/-- Source function `ParseNICFipTerraformID`: splits on `/`, errors unless
there are exactly 3 segments, none empty. -/
def ParseNICFipTerraformID (s : List Char) :
    Except String (List Char × List Char × List Char) :=
  match splitOnChar '/' s with
  | [s0, s1, s2] =>
    if s0 = [] ∨ s1 = [] ∨ s2 = [] then
      .error "invalid terraform Id (one or more empty segments)"
    else
      .ok (s0, s1, s2)
  | _ => .error "invalid terraform Id (incorrect number of segments)"

theorem splitOnChar_ne_nil (sep : Char) :
    ∀ (s : List Char), splitOnChar sep s ≠ []
  | [] => by simp [splitOnChar]
  | c :: rest => by
    by_cases hc : c = sep
    · simp [splitOnChar, hc]
    · have := splitOnChar_ne_nil sep rest
      simp only [splitOnChar, hc, if_false]
      match h : splitOnChar sep rest with
      | [] => exact absurd h this
      | seg :: segs => simp

theorem splitOnChar_append (sep : Char) :
    ∀ (a rest : List Char), sep ∉ a →
    splitOnChar sep (a ++ sep :: rest) = a :: splitOnChar sep rest
  | [], rest, _ => by simp [splitOnChar]
  | c :: a, rest, h => by
    have hc : c ≠ sep := fun hcs => h (hcs ▸ List.mem_cons_self c a)
    have ha : sep ∉ a := fun hs => h (List.mem_cons_of_mem c hs)
    have ih := splitOnChar_append sep a rest ha
    simp only [List.cons_append, splitOnChar, hc, if_false, List.append_eq]
    rw [ih]

theorem splitOnChar_no_sep (sep : Char) :
    ∀ (a : List Char), sep ∉ a → splitOnChar sep a = [a]
  | [], _ => by simp [splitOnChar]
  | c :: a, h => by
    have hc : c ≠ sep := fun hcs => h (hcs ▸ List.mem_cons_self c a)
    have ha : sep ∉ a := fun hs => h (List.mem_cons_of_mem c hs)
    have ih := splitOnChar_no_sep sep a ha
    simp only [splitOnChar, hc, if_false, ih]

/-- Claim C3 as stated is false: the round-trip property is claimed for
every triple of non-empty component strings, but a component containing
the delimiter `/` (here the non-empty first component `"a/b"`) makes the
joined string split into four segments, so the parse errors instead of
returning the original components. -/
theorem nicfip_id_roundtrip_counterexample :
    (['a', '/', 'b'] : List Char) ≠ [] ∧ (['c'] : List Char) ≠ [] ∧
    (['d'] : List Char) ≠ [] ∧
    ParseNICFipTerraformID (MakeTerraformNICFipID ['a', '/', 'b'] ['c'] ['d']) =
      .error "invalid terraform Id (incorrect number of segments)" := by
  refine ⟨by decide, by decide, by decide, ?_⟩
  rfl

/-- Claim C3, amended: for every triple of non-empty component strings
none of which contains the delimiter `/`, parsing the joined id returns
exactly the original three components with no error; and
`ParseNICFipTerraformID` returns an error for every input whose `/`-split
does not have exactly 3 segments or has an empty segment. -/
theorem nicfip_id_roundtrip :
    (∀ (a b c : List Char), a ≠ [] → b ≠ [] → c ≠ [] →
      '/' ∉ a → '/' ∉ b → '/' ∉ c →
      ParseNICFipTerraformID (MakeTerraformNICFipID a b c) = .ok (a, b, c)) ∧
    (∀ (s : List Char),
      (splitOnChar '/' s).length ≠ 3 ∨ [] ∈ splitOnChar '/' s →
      ∃ msg, ParseNICFipTerraformID s = .error msg) := by
  constructor
  · intro a b c ha hb hc hsa hsb hsc
    have hmk : MakeTerraformNICFipID a b c = a ++ '/' :: (b ++ '/' :: c) := by
      simp [MakeTerraformNICFipID]
    have h1 : splitOnChar '/' (MakeTerraformNICFipID a b c) = [a, b, c] := by
      rw [hmk, splitOnChar_append '/' a _ hsa,
        splitOnChar_append '/' b _ hsb, splitOnChar_no_sep '/' c hsc]
    simp [ParseNICFipTerraformID, h1, ha, hb, hc]
  · intro s h
    unfold ParseNICFipTerraformID
    match hs : splitOnChar '/' s with
    | [s0, s1, s2] =>
      rw [hs] at h
      rcases h with h | h
      · simp at h
      · have : s0 = [] ∨ s1 = [] ∨ s2 = [] := by
          simpa using h
        simp [this]
    | [] => exact ⟨_, rfl⟩
    | [_] => exact ⟨_, rfl⟩
    | [_, _] => exact ⟨_, rfl⟩
    | _ :: _ :: _ :: _ :: _ => exact ⟨_, rfl⟩

/-- Witness for the amended C3 at concrete inputs: the round-trip on
`("a", "b", "c")` and the error on `"x//y"` (an empty middle segment). -/
theorem nicfip_id_roundtrip_witness :
    (ParseNICFipTerraformID (MakeTerraformNICFipID ['a'] ['b'] ['c']) =
      .ok (['a'], ['b'], ['c'])) ∧
    (∃ msg, ParseNICFipTerraformID ['x', '/', '/', 'y'] = .error msg) := by
  constructor
  · exact nicfip_id_roundtrip.1 ['a'] ['b'] ['c'] (by decide) (by decide)
      (by decide) (by decide) (by decide) (by decide)
  · exact nicfip_id_roundtrip.2 ['x', '/', '/', 'y'] (by decide)

/-! ## Asynchronous status polling

The refresh functions are embedded from the source
(`isBareMetalServerNetworkInterfaceFloatingIpRefreshFunc`, part_000 lines
648-679, and `isBareMetalServerNetworkInterfaceFloatingIpDeleteRefreshFunc`,
lines 614-632).  A refresh consumes one fetch outcome — the
`GetBareMetalServerNetworkInterfaceFloatingIP` call's result, an
`Except ErrResp String` whose `ok` value is the floating IP's status
string — and returns the observed state label plus an optional fatal
error, exactly as the Go closures return `(interface{}, string, error)`.
The `d.Set(floatingIPStatus, ...)` observability write and the
`communicator` channel (which nothing in this source file ever sends on)
have no bearing on the returned state and are not modelled. -/

/-- Result of one run of the polling loop. -/
inductive PollResult where
  | reached (state : String) (fetches : Nat)
  | timedOut
  | fetchFailed (msg : String)
deriving DecidableEq, Repr

/-- Source refresh function
`isBareMetalServerNetworkInterfaceFloatingIpRefreshFunc`: a fetch error is
fatal (state `""`); status `available` or `failed` is returned as the
state; any other status is reported as `pending`. -/
def isBareMetalServerNetworkInterfaceFloatingIpRefreshFunc
    (fetch : Except ErrResp String) : String × Option String :=
  match fetch with
  | .error e => ("", some e.msg)
  | .ok status =>
    if status = "available" || status = "failed" then
      (status, none)
    else
      ("pending", none)

/-- Source refresh function
`isBareMetalServerNetworkInterfaceFloatingIpDeleteRefreshFunc`: a fetch
failing with HTTP 404 immediately reports the terminal `deleted` state
with no error; any other fetch failure reports `failed` together with the
error; a successful fetch reports `deleting` with no error. -/
def isBareMetalServerNetworkInterfaceFloatingIpDeleteRefreshFunc
    (fetch : Except ErrResp String) : String × Option String :=
  match fetch with
  | .error e =>
    if e.statusCode = some 404 then
      ("deleted", none)
    else
      ("failed", some e.msg)
  | .ok _ => ("deleting", none)

/-- Modelled from the spec: the fixed-interval polling loop
(`resource.StateChangeConf.WaitForState` of the terraform-plugin-sdk,
which is not part of this repository's sources).  Per spec section 4.2 the
loop waits a constant interval, fetches and classifies the status, stops
with the final observed status when it is a terminal (target) label,
aborts with a fetch error when the refresh reports one, and yields a
dedicated timeout error once the wait budget is exhausted without reaching
a terminal state.  `fuel` is the number of interval-spaced fetches that
fit in the remaining budget and `k` the index of the next fetch;
`refresh k` gives the k-th classification. -/
def specPollGo (refresh : Nat → String × Option String)
    (targets : List String) : Nat → Nat → PollResult
  | 0, _ => .timedOut
  | fuel + 1, k =>
    match refresh k with
    | (_, some e) => .fetchFailed e
    | (s, none) =>
      if targets.contains s then
        .reached s (k + 1)
      else
        specPollGo refresh targets fuel (k + 1)

/-- Modelled from the spec: run the polling loop with the given fixed
interval and total timeout budget; `timeout / interval` interval-spaced
fetches fit in the budget. -/
def specWaitForState (refresh : Nat → String × Option String)
    (targets : List String) (interval timeout : Nat) : PollResult :=
  specPollGo refresh targets (timeout / interval) 0

/-- Source function `isWaitForBareMetalServerNetworkInterfaceFloatingIpAvailable`
(part_000 lines 634-646): polls with Pending `["pending"]` and Target
`["available", "failed"]` using the availability refresh function; the
k-th fetch outcome is `fetches k`. -/
def isWaitForBareMetalServerNetworkInterfaceFloatingIpAvailable
    (fetches : Nat → Except ErrResp String) (interval timeout : Nat) :
    PollResult :=
  specWaitForState
    (fun k => isBareMetalServerNetworkInterfaceFloatingIpRefreshFunc (fetches k))
    ["available", "failed"] interval timeout

/-- Source function `isWaitForBareMetalServerNetworkInterfaceFloatingIpDeleted`
(part_000 lines 600-612): polls with Target `["deleted", "failed", ""]`
using the delete refresh function.  (The middle target label is the
constant `isBareMetalServerNetworkInterfaceFailed` = `"failed"`, declared
in the bare-metal-server network-interface resource file of this
repository.) -/
def isWaitForBareMetalServerNetworkInterfaceFloatingIpDeleted
    (fetches : Nat → Except ErrResp String) (interval timeout : Nat) :
    PollResult :=
  specWaitForState
    (fun k => isBareMetalServerNetworkInterfaceFloatingIpDeleteRefreshFunc (fetches k))
    ["deleted", "failed", ""] interval timeout

theorem specPollGo_reached (refresh : Nat → String × Option String)
    (targets : List String) :
    ∀ (k i fuel : Nat), k < fuel →
    (∀ j, j < k → (refresh (i + j)).2 = none ∧
      targets.contains (refresh (i + j)).1 = false) →
    (refresh (i + k)).2 = none →
    targets.contains (refresh (i + k)).1 = true →
    specPollGo refresh targets fuel i = .reached (refresh (i + k)).1 (i + k + 1)
  | k, _, 0, hk, _, _, _ => absurd hk (Nat.not_lt_zero k)
  | 0, i, fuel + 1, _, _, hnone, htgt => by
    simp only [Nat.add_zero] at hnone htgt ⊢
    rcases hr : refresh i with ⟨s, o⟩
    rw [hr] at hnone htgt
    cases o with
    | some e => simp at hnone
    | none =>
      simp only [specPollGo, hr]
      rw [if_pos htgt]
  | k + 1, i, fuel + 1, hk, hpre, hnone, htgt => by
    have h0 := hpre 0 (Nat.succ_pos k)
    simp only [Nat.add_zero] at h0
    have e2 : i + (k + 1) = i + 1 + k := by omega
    rw [e2] at hnone htgt
    have ih := specPollGo_reached refresh targets k (i + 1) fuel
      (Nat.lt_of_succ_lt_succ hk)
      (fun j hj => by
        have h := hpre (j + 1) (Nat.succ_lt_succ hj)
        have e : i + (j + 1) = i + 1 + j := by omega
        rwa [e] at h)
      hnone htgt
    rcases hr : refresh i with ⟨s, o⟩
    rw [hr] at h0
    cases o with
    | some e => simp at h0
    | none =>
      simp only [specPollGo, hr, h0.2, Bool.false_eq_true, if_false]
      rw [ih, e2]

theorem specPollGo_timeout (refresh : Nat → String × Option String)
    (targets : List String)
    (h : ∀ j, (refresh j).2 = none ∧ targets.contains (refresh j).1 = false) :
    ∀ (fuel i : Nat), specPollGo refresh targets fuel i = .timedOut
  | 0, _ => rfl
  | fuel + 1, i => by
    have hi := h i
    rcases hr : refresh i with ⟨s, o⟩
    rw [hr] at hi
    cases o with
    | some e => simp at hi
    | none =>
      simp only [specPollGo, hr, hi.2, Bool.false_eq_true, if_false]
      exact specPollGo_timeout refresh targets h fuel (i + 1)

/-- Claim C2: given the status sequence `[pending, pending, available]`
returned by successive fetches, the availability poller returns
`available` after exactly 3 interval-spaced fetches; and for every fetch
sequence whose statuses never reach a terminal state (`available` or
`failed`) the poller exhausts the timeout budget and returns the dedicated
timeout error, never a silent success. -/
theorem floating_ip_available_poller :
    (∀ (fetches : Nat → Except ErrResp String) (interval timeout : Nat),
      3 ≤ timeout / interval →
      fetches 0 = .ok "pending" →
      fetches 1 = .ok "pending" →
      fetches 2 = .ok "available" →
      isWaitForBareMetalServerNetworkInterfaceFloatingIpAvailable
        fetches interval timeout = .reached "available" 3) ∧
    (∀ (fetches : Nat → Except ErrResp String) (interval timeout : Nat),
      (∀ k, ∃ s, fetches k = .ok s ∧ s ≠ "available" ∧ s ≠ "failed") →
      isWaitForBareMetalServerNetworkInterfaceFloatingIpAvailable
        fetches interval timeout = .timedOut) := by
  constructor
  · intro fetches interval timeout h3 h0 h1 h2
    have hres := specPollGo_reached
      (fun k => isBareMetalServerNetworkInterfaceFloatingIpRefreshFunc (fetches k))
      ["available", "failed"] 2 0 (timeout / interval) (by omega)
      (fun j hj => by
        rcases j with _ | _ | j
        · simp [isBareMetalServerNetworkInterfaceFloatingIpRefreshFunc, h0]
        · simp [isBareMetalServerNetworkInterfaceFloatingIpRefreshFunc, h1]
        · omega)
      (by simp [isBareMetalServerNetworkInterfaceFloatingIpRefreshFunc, h2])
      (by simp [isBareMetalServerNetworkInterfaceFloatingIpRefreshFunc, h2])
    simpa [isWaitForBareMetalServerNetworkInterfaceFloatingIpAvailable,
      specWaitForState, isBareMetalServerNetworkInterfaceFloatingIpRefreshFunc,
      h2] using hres
  · intro fetches interval timeout hnt
    have h : ∀ j,
        ((fun k => isBareMetalServerNetworkInterfaceFloatingIpRefreshFunc (fetches k)) j).2 = none ∧
        (["available", "failed"].contains
          ((fun k => isBareMetalServerNetworkInterfaceFloatingIpRefreshFunc (fetches k)) j).1) = false := by
      intro j
      obtain ⟨s, hs, hsa, hsf⟩ := hnt j
      simp [isBareMetalServerNetworkInterfaceFloatingIpRefreshFunc, hs, hsa, hsf]
    simpa [isWaitForBareMetalServerNetworkInterfaceFloatingIpAvailable,
      specWaitForState] using
      specPollGo_timeout _ _ h (timeout / interval) 0

/-- Witness for C2 at concrete inputs: interval 10, budget 60, the fetch
sequence `pending, pending, available, available, ...` reaches `available`
in exactly 3 fetches; the constant-`pending` sequence times out. -/
theorem floating_ip_available_poller_witness :
    isWaitForBareMetalServerNetworkInterfaceFloatingIpAvailable
      (fun k => if k < 2 then .ok "pending" else .ok "available") 10 60 =
      .reached "available" 3 ∧
    isWaitForBareMetalServerNetworkInterfaceFloatingIpAvailable
      (fun _ => .ok "pending") 10 60 = .timedOut := by
  constructor
  · exact floating_ip_available_poller.1
      (fun k => if k < 2 then .ok "pending" else .ok "available") 10 60
      (by decide) rfl rfl rfl
  · exact floating_ip_available_poller.2 (fun _ => .ok "pending") 10 60
      (fun k => ⟨"pending", rfl, by decide, by decide⟩)

/-- Claim C6: for the floating-IP delete poller's refresh function, a
fetch failing with HTTP 404 immediately yields the terminal `deleted`
state with no error; a fetch failure with any other status yields the
`failed` state together with an error; and at the poller level, a 404 at
the k-th fetch (after any number of successful pending observations)
makes the delete wait report `deleted` at exactly that fetch. -/
theorem delete_poller_404_is_terminal_deleted :
    (∀ e : ErrResp, e.statusCode = some 404 →
      isBareMetalServerNetworkInterfaceFloatingIpDeleteRefreshFunc (.error e) =
        ("deleted", none)) ∧
    (∀ e : ErrResp, e.statusCode ≠ some 404 →
      isBareMetalServerNetworkInterfaceFloatingIpDeleteRefreshFunc (.error e) =
        ("failed", some e.msg)) ∧
    (∀ (fetches : Nat → Except ErrResp String) (interval timeout k : Nat)
      (e : ErrResp),
      (∀ j, j < k → ∃ s, fetches j = .ok s) →
      fetches k = .error e →
      e.statusCode = some 404 →
      k < timeout / interval →
      isWaitForBareMetalServerNetworkInterfaceFloatingIpDeleted
        fetches interval timeout = .reached "deleted" (k + 1)) := by
  refine ⟨fun e he => ?_, fun e he => ?_, ?_⟩
  · simp [isBareMetalServerNetworkInterfaceFloatingIpDeleteRefreshFunc, he]
  · simp [isBareMetalServerNetworkInterfaceFloatingIpDeleteRefreshFunc, he]
  · intro fetches interval timeout k e hpre hk h404 hbudget
    have hres := specPollGo_reached
      (fun j => isBareMetalServerNetworkInterfaceFloatingIpDeleteRefreshFunc (fetches j))
      ["deleted", "failed", ""] k 0 (timeout / interval) hbudget
      (fun j hj => by
        obtain ⟨s, hs⟩ := hpre j hj
        simp [isBareMetalServerNetworkInterfaceFloatingIpDeleteRefreshFunc, hs])
      (by simp [isBareMetalServerNetworkInterfaceFloatingIpDeleteRefreshFunc, hk, h404])
      (by simp [isBareMetalServerNetworkInterfaceFloatingIpDeleteRefreshFunc, hk, h404])
    simpa [isWaitForBareMetalServerNetworkInterfaceFloatingIpDeleted,
      specWaitForState, isBareMetalServerNetworkInterfaceFloatingIpDeleteRefreshFunc,
      hk, h404] using hres

/-- Witness for C6 at concrete inputs: a non-404 refresh failure, a 404
refresh, and a poll run whose second fetch 404s after one successful
`deleting` observation. -/
theorem delete_poller_404_is_terminal_deleted_witness :
    isBareMetalServerNetworkInterfaceFloatingIpDeleteRefreshFunc
      (.error ⟨some 404, "gone"⟩) = ("deleted", none) ∧
    isBareMetalServerNetworkInterfaceFloatingIpDeleteRefreshFunc
      (.error ⟨some 500, "boom"⟩) = ("failed", some "boom") ∧
    isWaitForBareMetalServerNetworkInterfaceFloatingIpDeleted
      (fun k => if k < 1 then .ok "deleting" else .error ⟨some 404, "gone"⟩)
      10 60 = .reached "deleted" 2 := by
  refine ⟨delete_poller_404_is_terminal_deleted.1 ⟨some 404, "gone"⟩ rfl,
    delete_poller_404_is_terminal_deleted.2.1 ⟨some 500, "boom"⟩ (by decide), ?_⟩
  exact delete_poller_404_is_terminal_deleted.2.2
    (fun k => if k < 1 then .ok "deleting" else .error ⟨some 404, "gone"⟩)
    10 60 1 ⟨some 404, "gone"⟩
    (fun j hj => by
      have hj0 : j = 0 := by omega
      subst hj0
      exact ⟨"deleting", rfl⟩)
    rfl rfl (by decide)

/-! ## Network-ACL rules: validation, creation, clearing

Embeds `validateInlineRules` (resource_ibm_is_networkacls.go lines
897-918), `createInlineRules` (lines 920-1025), `clearRules` (lines
852-895), `nwaclCreate` (lines 417-502) and `nwaclUpdate` (lines
700-768).  A schema rule (one entry of the `rules` list of
`map[string]interface{}` values) is an `InlineRule`; the `icmp` entry's
single element may be nil in Go, hence `Option IcmpBlock`.  The integer
sub-block fields are `Option Int` mirroring the `if val, ok :=
block[key]` map lookups. -/

/-- The `icmp` sub-block: optional type and code. -/
structure IcmpBlock where
  icmpType : Option Int
  icmpCode : Option Int
deriving DecidableEq, Repr

/-- The `tcp` / `udp` sub-block: optional destination and source port
bounds. -/
structure PortBlock where
  portMax : Option Int
  portMin : Option Int
  sourcePortMax : Option Int
  sourcePortMin : Option Int
deriving DecidableEq, Repr

/-- One entry of the schema `rules` list. -/
structure InlineRule where
  name : String
  action : String
  direction : String
  source : String
  destination : String
  icmp : List (Option IcmpBlock)
  tcp : List PortBlock
  udp : List PortBlock
deriving DecidableEq, Repr

/-- Source function `validateInlineRules`: rejects a rule whose action is
neither `allow` nor `deny`, and a rule populating more than one of the
icmp/tcp/udp sub-blocks.  The direction string is read and lowercased by
the source but never checked, which the dead binding mirrors. -/
def validateInlineRules : List InlineRule → Option String
  | [] => none
  | rule :: rest =>
    if rule.action ≠ "allow" ∧ rule.action ≠ "deny" then
      some "[ERROR] Invalid action. valid values are allow|deny"
    else
      let _direction := rule.direction.toLower
      let icmp := !rule.icmp.isEmpty
      let tcp := !rule.tcp.isEmpty
      let udp := !rule.udp.isEmpty
      if (icmp && tcp) || (icmp && udp) || (tcp && udp) then
        some "Only one of icmp|tcp|udp can be defined per rule"
      else
        validateInlineRules rest

/-- The `vpcv1.NetworkACLRulePrototype` request struct built by
`createInlineRules` for one rule: pointer fields are `Option`s, left
`none` when the source never sets them. -/
structure NetworkACLRulePrototype where
  action : String
  destination : String
  direction : String
  source : String
  name : String
  protocol : String
  icmpType : Option Int
  icmpCode : Option Int
  destinationPortMin : Option Int
  destinationPortMax : Option Int
  sourcePortMin : Option Int
  sourcePortMax : Option Int
  before : Option String
deriving DecidableEq, Repr

/-- The rule template built by one iteration of `createInlineRules`
(lines 926-1013): protocol `icmp` when the icmp sub-block is non-empty
(fields copied unless its element is nil), else `tcp`, else `udp` (ports
copied), else `all`.  The `before` local starts empty and is never
reassigned in the source, so the `Before` field is never populated. -/
def buildRuleTemplate (rule : InlineRule) : NetworkACLRulePrototype :=
  let base : NetworkACLRulePrototype :=
    { action := rule.action, destination := rule.destination,
      direction := rule.direction, source := rule.source, name := rule.name,
      protocol := "all", icmpType := none, icmpCode := none,
      destinationPortMin := none, destinationPortMax := none,
      sourcePortMin := none, sourcePortMax := none, before := none }
  match rule.icmp with
  | icmp0 :: _ =>
    match icmp0 with
    | some v =>
      { base with
        protocol := "icmp", icmpType := v.icmpType, icmpCode := v.icmpCode }
    | none => { base with protocol := "icmp" }
  | [] =>
    match rule.tcp with
    | tcp0 :: _ =>
      { base with
        protocol := "tcp",
        destinationPortMin := tcp0.portMin, destinationPortMax := tcp0.portMax,
        sourcePortMin := tcp0.sourcePortMin, sourcePortMax := tcp0.sourcePortMax }
    | [] =>
      match rule.udp with
      | udp0 :: _ =>
        { base with
          protocol := "udp",
          destinationPortMin := udp0.portMin, destinationPortMax := udp0.portMax,
          sourcePortMin := udp0.sourcePortMin, sourcePortMax := udp0.sourcePortMax }
      | [] => base

/-- One SDK call issued by the network-ACL operations, in issue order. -/
inductive SdkCall where
  | createACL
  | updateACL
  | listRules
  | deleteRule (id : String)
  | createRule (idx : Nat) (template : NetworkACLRulePrototype)
deriving DecidableEq, Repr

/-- The loop body of `createInlineRules` starting at rule index `i`:
builds the k-th rule's template, issues one `CreateNetworkACLRule` call
(outcome given by `createRuleOutcome` at the rule's index), and aborts
with the wrapped error as soon as a call fails.  Returns the result
together with the trace of rule-creation calls issued. -/
def createInlineRulesGo (createRuleOutcome : Nat → Option String) :
    Nat → List InlineRule → Except String Unit × List SdkCall
  | _, [] => (.ok (), [])
  | i, rule :: rest =>
    let tmpl := buildRuleTemplate rule
    match createRuleOutcome i with
    | some e =>
      (.error ("[ERROR] Error Creating network ACL rule : " ++ e),
       [.createRule i tmpl])
    | none =>
      let r := createInlineRulesGo createRuleOutcome (i + 1) rest
      (r.1, .createRule i tmpl :: r.2)

/-- Source function `createInlineRules` (lines 920-1025): iterates the
rules from index 0. -/
def createInlineRules (createRuleOutcome : Nat → Option String)
    (rules : List InlineRule) : Except String Unit × List SdkCall :=
  createInlineRulesGo createRuleOutcome 0 rules

/-- The delete phase of `clearRules` (lines 873-893): one
`DeleteNetworkACLRule` call per collected rule id, in order, aborting on
the first failure (`deleteRuleOutcome` gives each call's outcome).  Every
rule-item variant of the type switch contributes its `ID`, so items are
modelled by their ids. -/
def clearRulesDeletePhase (deleteRuleOutcome : String → Option String) :
    List String → Except String Unit × List SdkCall
  | [] => (.ok (), [])
  | id :: rest =>
    match deleteRuleOutcome id with
    | some e =>
      (.error ("[ERROR] Error Deleting network ACL rule : " ++ e),
       [.deleteRule id])
    | none =>
      let r := clearRulesDeletePhase deleteRuleOutcome rest
      (r.1, .deleteRule id :: r.2)

/-- Source function `clearRules` (lines 852-895): lists all rules of the
ACL page by page, then deletes each collected rule; `none` when the page
oracle underdetermines the run. -/
def clearRules (listPages : List (PageFetch String))
    (deleteRuleOutcome : String → Option String) :
    Option (Except String Unit × List SdkCall) :=
  match paginateLoop listPages [] with
  | (none, _) => none
  | (some (.error e), n) =>
    some (.error ("[ERROR] Error Listing network ACL rules : " ++ e),
      List.replicate n .listRules)
  | (some (.ok ids), n) =>
    let r := clearRulesDeletePhase deleteRuleOutcome ids
    some (r.1, List.replicate n .listRules ++ r.2)

/-- The remote responses an `nwaclCreate` run consumes:
`CreateNetworkACL`'s outcome (the new ACL id on success), the rule-listing
pages and per-id delete outcomes consumed by `clearRules`, and the per-
index rule-creation outcomes consumed by `createInlineRules`. -/
structure CreateEnv where
  createACLOutcome : Except ErrResp String
  listPages : List (PageFetch String)
  deleteRuleOutcome : String → Option String
  createRuleOutcome : Nat → Option String

/-- Source function `nwaclCreate` (lines 417-502): requires a configured
`vpc` id, validates the inline rules before any SDK call, then issues
`CreateNetworkACL`, `clearRules` (removing the server-assigned default
rules) and `createInlineRules`, aborting on the first error.  The
trailing tag-synchronization calls are deliberately non-fatal logging and
are not modelled. -/
def nwaclCreate (vpc : Option String) (rules : List InlineRule)
    (env : CreateEnv) : Option (Except String Unit × List SdkCall) :=
  match vpc with
  | none => some (.error "[ERROR] No vpc configured", [])
  | some _ =>
    match validateInlineRules rules with
    | some e => some (.error e, [])
    | none =>
      match env.createACLOutcome with
      | .error e =>
        some (.error ("CreateNetworkACLWithContext failed: " ++ e.msg),
          [.createACL])
      | .ok _nwaclid =>
        match clearRules env.listPages env.deleteRuleOutcome with
        | none => none
        | some (.error e, tr) =>
          some (.error ("clearRules failed: " ++ e), .createACL :: tr)
        | some (.ok _, tr) =>
          let r := createInlineRules env.createRuleOutcome rules
          match r.1 with
          | .error e =>
            some (.error ("createInlineRules failed: " ++ e),
              .createACL :: tr ++ r.2)
          | .ok _ => some (.ok (), .createACL :: tr ++ r.2)

/-- The remote responses an `nwaclUpdate` run consumes. -/
structure UpdateEnv where
  updateACLOutcome : Option String
  listPages : List (PageFetch String)
  deleteRuleOutcome : String → Option String
  createRuleOutcome : Nat → Option String

/-- Source function `nwaclUpdate` (lines 700-768): when the name changed
(`hasChanged`) it first issues `UpdateNetworkACL`; only then, when the
rules changed, it validates the inline rules and, on success, clears and
recreates them.  The tag-update calls in between are deliberately
non-fatal logging and are not modelled. -/
def nwaclUpdate (rules : List InlineRule) (hasChanged rulesChanged : Bool)
    (env : UpdateEnv) : Option (Except String Unit × List SdkCall) :=
  let step1 : Except String Unit × List SdkCall :=
    if hasChanged then
      match env.updateACLOutcome with
      | some e =>
        (.error ("UpdateNetworkACLWithContext failed: " ++ e), [.updateACL])
      | none => (.ok (), [.updateACL])
    else
      (.ok (), [])
  match step1.1 with
  | .error e => some (.error e, step1.2)
  | .ok _ =>
    if rulesChanged then
      match validateInlineRules rules with
      | some e => some (.error ("validateInlineRules failed: " ++ e), step1.2)
      | none =>
        match clearRules env.listPages env.deleteRuleOutcome with
        | none => none
        | some (.error e, tr) =>
          some (.error ("clearRules failed: " ++ e), step1.2 ++ tr)
        | some (.ok _, tr) =>
          let r := createInlineRules env.createRuleOutcome rules
          match r.1 with
          | .error e =>
            some (.error ("createInlineRules failed: " ++ e),
              step1.2 ++ tr ++ r.2)
          | .ok _ => some (.ok (), step1.2 ++ tr ++ r.2)
    else
      some (.ok (), step1.2)

theorem validateInlineRules_cons (r : InlineRule) (rest : List InlineRule) :
    validateInlineRules (r :: rest) =
      if r.action ≠ "allow" ∧ r.action ≠ "deny" then
        some "[ERROR] Invalid action. valid values are allow|deny"
      else if (!r.icmp.isEmpty && !r.tcp.isEmpty) ||
          (!r.icmp.isEmpty && !r.udp.isEmpty) ||
          (!r.tcp.isEmpty && !r.udp.isEmpty) then
        some "Only one of icmp|tcp|udp can be defined per rule"
      else
        validateInlineRules rest := rfl

theorem inlineRule_blocks_bool (r : InlineRule) :
    ((!r.icmp.isEmpty && !r.tcp.isEmpty) ||
      (!r.icmp.isEmpty && !r.udp.isEmpty) ||
      (!r.tcp.isEmpty && !r.udp.isEmpty)) = true ↔
    ((r.icmp ≠ [] ∧ r.tcp ≠ []) ∨ (r.icmp ≠ [] ∧ r.udp ≠ []) ∨
      (r.tcp ≠ [] ∧ r.udp ≠ [])) := by
  rcases r with ⟨_, _, _, _, _, icmp, tcp, udp⟩
  cases icmp <;> cases tcp <;> cases udp <;> simp

/-- Claim C9: `validateInlineRules` returns nil exactly when every rule's
action is `allow` or `deny` and at most one of its icmp/tcp/udp sub-block
lists is non-empty; the rule's direction is read and lowercased but never
checked, so the result is invariant under arbitrary changes of every
rule's direction string. -/
theorem validateInlineRules_spec :
    (∀ rules : List InlineRule,
      validateInlineRules rules = none ↔
      ∀ r ∈ rules, (r.action = "allow" ∨ r.action = "deny") ∧
        ¬((r.icmp ≠ [] ∧ r.tcp ≠ []) ∨ (r.icmp ≠ [] ∧ r.udp ≠ []) ∨
          (r.tcp ≠ [] ∧ r.udp ≠ []))) ∧
    (∀ (rules : List InlineRule) (f : InlineRule → String),
      validateInlineRules (rules.map fun r => { r with direction := f r }) =
        validateInlineRules rules) := by
  constructor
  · intro rules
    induction rules with
    | nil => simp [validateInlineRules]
    | cons r rest ih =>
      rw [validateInlineRules_cons]
      by_cases ha : r.action ≠ "allow" ∧ r.action ≠ "deny"
      · rw [if_pos ha]
        constructor
        · intro h; exact absurd h (by simp)
        · intro h
          rcases (h r (List.mem_cons_self r rest)).1 with h1 | h1
          · exact absurd h1 ha.1
          · exact absurd h1 ha.2
      · rw [if_neg ha]
        have haor : r.action = "allow" ∨ r.action = "deny" := by tauto
        by_cases hb : ((!r.icmp.isEmpty && !r.tcp.isEmpty) ||
            (!r.icmp.isEmpty && !r.udp.isEmpty) ||
            (!r.tcp.isEmpty && !r.udp.isEmpty)) = true
        · rw [if_pos hb]
          constructor
          · intro h; exact absurd h (by simp)
          · intro h
            exact absurd ((inlineRule_blocks_bool r).mp hb)
              (h r (List.mem_cons_self r rest)).2
        · rw [if_neg hb, ih]
          constructor
          · intro h x hx
            rcases List.mem_cons.mp hx with rfl | hx
            · exact ⟨haor, fun hcon =>
                hb ((inlineRule_blocks_bool x).mpr hcon)⟩
            · exact h x hx
          · intro h x hx
            exact h x (List.mem_cons_of_mem r hx)
  · intro rules f
    induction rules with
    | nil => rfl
    | cons r rest ih =>
      simp only [List.map_cons, validateInlineRules_cons, ih]

/-- A concrete valid rule: action `allow`, no protocol sub-block. -/
def allowAllRule : InlineRule :=
  { name := "r1", action := "allow", direction := "inbound",
    source := "0.0.0.0/0", destination := "0.0.0.0/0",
    icmp := [], tcp := [], udp := [] }

/-- Witness exercising C9 in both directions at concrete rule lists: a
valid one-rule list stays valid when its direction is replaced by
garbage, and the `mp` direction extracts the per-rule facts from a
computed nil result. -/
theorem validateInlineRules_spec_witness :
    validateInlineRules
      [{ allowAllRule with direction := "garbage" }] = none ∧
    (allowAllRule.action = "allow" ∨ allowAllRule.action = "deny") := by
  constructor
  · exact (validateInlineRules_spec.2 [allowAllRule]
      (fun _ => "garbage")).trans rfl
  · exact (((validateInlineRules_spec.1 [allowAllRule]).mp rfl) _
      (List.mem_cons_self _ _)).1

/-- The expected trace of `createInlineRules` starting at index `i`: one
rule-creation call per rule, in list order, carrying the rule's built
template. -/
def inlineRuleTrace : Nat → List InlineRule → List SdkCall
  | _, [] => []
  | i, r :: rest => .createRule i (buildRuleTemplate r) :: inlineRuleTrace (i + 1) rest

theorem createInlineRulesGo_ok (oracle : Nat → Option String) :
    ∀ (rules : List InlineRule) (i : Nat),
    (∀ j, j < rules.length → oracle (i + j) = none) →
    createInlineRulesGo oracle i rules = (.ok (), inlineRuleTrace i rules)
  | [], _, _ => rfl
  | r :: rest, i, h => by
    have h0 : oracle i = none := by
      have := h 0 (Nat.succ_pos rest.length)
      simpa using this
    have ih := createInlineRulesGo_ok oracle rest (i + 1) (fun j hj => by
      have := h (j + 1) (Nat.succ_lt_succ hj)
      have e : i + (j + 1) = i + 1 + j := by omega
      rwa [e] at this)
    simp [createInlineRulesGo, h0, ih, inlineRuleTrace]

theorem createInlineRulesGo_fail (oracle : Nat → Option String) :
    ∀ (rules : List InlineRule) (i j : Nat) (e : String),
    j < rules.length →
    (∀ m, m < j → oracle (i + m) = none) →
    oracle (i + j) = some e →
    createInlineRulesGo oracle i rules =
      (.error ("[ERROR] Error Creating network ACL rule : " ++ e),
       inlineRuleTrace i (rules.take (j + 1)))
  | [], _, j, _, hj, _, _ => absurd hj (by simp)
  | r :: rest, i, 0, e, _, _, hfail => by
    simp only [Nat.add_zero] at hfail
    simp [createInlineRulesGo, hfail, inlineRuleTrace]
  | r :: rest, i, j + 1, e, hj, hpre, hfail => by
    have h0 : oracle i = none := by
      have := hpre 0 (Nat.succ_pos j)
      simpa using this
    have e1 : i + (j + 1) = i + 1 + j := by omega
    rw [e1] at hfail
    have ih := createInlineRulesGo_fail oracle rest (i + 1) j e
      (Nat.lt_of_succ_lt_succ hj)
      (fun m hm => by
        have := hpre (m + 1) (Nat.succ_lt_succ hm)
        have e2 : i + (m + 1) = i + 1 + m := by omega
        rwa [e2] at this)
      hfail
    simp [createInlineRulesGo, h0, ih, inlineRuleTrace]

theorem createInlineRulesGo_no_delete (oracle : Nat → Option String) :
    ∀ (rules : List InlineRule) (i : Nat),
    ∀ c ∈ (createInlineRulesGo oracle i rules).2, ∀ id, c ≠ .deleteRule id
  | [], _, c, hc, _ => by simp [createInlineRulesGo] at hc
  | r :: rest, i, c, hc, id => by
    rcases ho : oracle i with _ | e
    · rw [createInlineRulesGo, ho] at hc
      simp only [List.mem_cons] at hc
      rcases hc with rfl | hc
      · simp
      · exact createInlineRulesGo_no_delete oracle rest (i + 1) c hc id
    · rw [createInlineRulesGo, ho] at hc
      simp only [List.mem_singleton] at hc
      subst hc
      simp

/-- Claim C10: `createInlineRules` issues exactly one
`CreateNetworkACLRule` call per input rule, in list order; if the call
for the rule at index j fails, it returns that error immediately with
exactly the calls for indices 0..j issued (the j preceding rules remain
created remotely), and it never issues a compensating delete call. -/
theorem createInlineRules_one_call_per_rule :
    (∀ (oracle : Nat → Option String) (rules : List InlineRule),
      (∀ j, j < rules.length → oracle j = none) →
      createInlineRules oracle rules = (.ok (), inlineRuleTrace 0 rules)) ∧
    (∀ (oracle : Nat → Option String) (rules : List InlineRule) (j : Nat)
      (e : String),
      j < rules.length →
      (∀ m, m < j → oracle m = none) →
      oracle j = some e →
      createInlineRules oracle rules =
        (.error ("[ERROR] Error Creating network ACL rule : " ++ e),
         inlineRuleTrace 0 (rules.take (j + 1)))) ∧
    (∀ (oracle : Nat → Option String) (rules : List InlineRule),
      ∀ c ∈ (createInlineRules oracle rules).2, ∀ id, c ≠ .deleteRule id) := by
  refine ⟨fun oracle rules h => ?_, fun oracle rules j e hj hpre hfail => ?_,
    fun oracle rules => createInlineRulesGo_no_delete oracle rules 0⟩
  · exact createInlineRulesGo_ok oracle rules 0 (by simpa using h)
  · exact createInlineRulesGo_fail oracle rules 0 j e hj (by simpa using hpre)
      (by simpa using hfail)

/-- Witness for C10: a successful run issues one call for the single
rule; a run whose second call fails stops with the wrapped error after
exactly the first two calls; and a concrete trace entry is not a delete
call. -/
theorem createInlineRules_one_call_per_rule_witness :
    createInlineRules (fun _ => none) [allowAllRule] =
      (.ok (), inlineRuleTrace 0 [allowAllRule]) ∧
    createInlineRules (fun j => if j = 1 then some "quota" else none)
      [allowAllRule, { allowAllRule with name := "r2" }] =
      (.error "[ERROR] Error Creating network ACL rule : quota",
       inlineRuleTrace 0
         ([allowAllRule, { allowAllRule with name := "r2" }].take 2)) ∧
    SdkCall.createRule 0 (buildRuleTemplate allowAllRule) ≠
      SdkCall.deleteRule "x" := by
  refine ⟨?_, ?_, ?_⟩
  · exact createInlineRules_one_call_per_rule.1 (fun _ => none) [allowAllRule]
      (fun j hj => rfl)
  · exact createInlineRules_one_call_per_rule.2.1
      (fun j => if j = 1 then some "quota" else none)
      [allowAllRule, { allowAllRule with name := "r2" }] 1 "quota"
      (by decide)
      (fun m hm => by
        have hm0 : m = 0 := by omega
        subst hm0
        rfl)
      rfl
  · exact createInlineRules_one_call_per_rule.2.2 (fun _ => none) [allowAllRule]
      (SdkCall.createRule 0 (buildRuleTemplate allowAllRule))
      (List.mem_cons_self _ _) "x"

theorem clearRulesDeletePhase_ok (deleteRuleOutcome : String → Option String)
    (h : ∀ id, deleteRuleOutcome id = none) :
    ∀ ids : List String,
    clearRulesDeletePhase deleteRuleOutcome ids =
      (.ok (), ids.map SdkCall.deleteRule)
  | [] => rfl
  | id :: rest => by
    simp [clearRulesDeletePhase, h id,
      clearRulesDeletePhase_ok deleteRuleOutcome h rest]

theorem paginateLoop_calls_pos {α : Type} :
    ∀ (fetches : List (PageFetch α)) (acc : List α),
    pagesComplete fetches = true → 1 ≤ (paginateLoop fetches acc).2 := by
  intro fetches acc h
  match fetches with
  | [] => simp [pagesComplete] at h
  | .failure e :: rest => simp [paginateLoop]
  | .page items next :: rest =>
    by_cases hn : next = "" <;> simp [paginateLoop, hn]

theorem clearRules_all_ok (listPages : List (PageFetch String))
    (deleteRuleOutcome : String → Option String)
    (hcomp : pagesComplete listPages = true)
    (hdel : ∀ id, deleteRuleOutcome id = none) :
    clearRules listPages deleteRuleOutcome =
      some (.ok (), List.replicate (paginateLoop listPages []).2 .listRules ++
        (joinPages listPages).map SdkCall.deleteRule) := by
  have h1 := paginateLoop_complete listPages [] hcomp
  rcases hpl : paginateLoop listPages [] with ⟨res, n⟩
  rw [hpl] at h1
  simp only at h1
  subst h1
  simp [clearRules, hpl, clearRulesDeletePhase_ok deleteRuleOutcome hdel]

/-- Claim C8: creating a network ACL with an empty rule list succeeds
when the remote create succeeds, and before returning it deletes every
server-assigned default rule: the trace is the create call followed
unconditionally by `clearRules`'s listing calls (at least one) and one
delete per listed default rule, and `createInlineRules` issues zero
rule-creation calls for the empty list. -/
theorem nwaclCreate_empty_rules_clears_defaults :
    (∀ oracle : Nat → Option String,
      createInlineRules oracle [] = (.ok (), [])) ∧
    (∀ (env : CreateEnv) (vpcId aclId : String),
      env.createACLOutcome = .ok aclId →
      pagesComplete env.listPages = true →
      (∀ id, env.deleteRuleOutcome id = none) →
      ∃ n, 1 ≤ n ∧
        nwaclCreate (some vpcId) [] env =
          some (.ok (), SdkCall.createACL ::
            (List.replicate n SdkCall.listRules ++
              (joinPages env.listPages).map SdkCall.deleteRule))) := by
  refine ⟨fun oracle => rfl, fun env vpcId aclId hok hcomp hdel => ?_⟩
  refine ⟨(paginateLoop env.listPages []).2,
    paginateLoop_calls_pos env.listPages [] hcomp, ?_⟩
  have hclear := clearRules_all_ok env.listPages env.deleteRuleOutcome hcomp hdel
  simp [nwaclCreate, validateInlineRules, hok, hclear, createInlineRules,
    createInlineRulesGo]

/-- Witness for C8: a concrete environment whose create succeeds and
whose single listing page carries two default rules. -/
theorem nwaclCreate_empty_rules_clears_defaults_witness :
    createInlineRules (fun _ => none) [] = (.ok (), []) ∧
    (∃ n, 1 ≤ n ∧
      nwaclCreate (some "vpc1") []
        { createACLOutcome := .ok "acl1",
          listPages := [.page ["dr1", "dr2"] ""],
          deleteRuleOutcome := fun _ => none,
          createRuleOutcome := fun _ => none } =
        some (.ok (), SdkCall.createACL ::
          (List.replicate n SdkCall.listRules ++
            (joinPages [PageFetch.page ["dr1", "dr2"] ""]).map
              SdkCall.deleteRule))) := by
  constructor
  · exact nwaclCreate_empty_rules_clears_defaults.1 (fun _ => none)
  · exact nwaclCreate_empty_rules_clears_defaults.2
      { createACLOutcome := .ok "acl1",
        listPages := [.page ["dr1", "dr2"] ""],
        deleteRuleOutcome := fun _ => none,
        createRuleOutcome := fun _ => none }
      "vpc1" "acl1" rfl (by decide) (fun id => rfl)

/-- A concrete invalid rule: both the icmp and the tcp sub-blocks are
populated. -/
def conflictingRule : InlineRule :=
  { allowAllRule with
    icmp := [some { icmpType := some 8, icmpCode := some 0 }],
    tcp := [{ portMax := some 65535, portMin := some 1,
              sourcePortMax := some 65535, sourcePortMin := some 1 }] }

/-- Claim C4 as stated is false for the update operation: with a rule
populating both icmp and tcp sub-blocks and a changed ACL name, `nwaclUpdate`
issues the `UpdateNetworkACL` SDK call (its name-patch, which precedes rule
validation in the source) before returning the validation error, so the
validation failure does not precede every SDK create/update/list/delete
call of the operation. -/
theorem acl_rule_validation_counterexample :
    validateInlineRules [conflictingRule] =
      some "Only one of icmp|tcp|udp can be defined per rule" ∧
    nwaclUpdate [conflictingRule] true true
      { updateACLOutcome := none, listPages := [],
        deleteRuleOutcome := fun _ => none,
        createRuleOutcome := fun _ => none } =
      some (.error
        "validateInlineRules failed: Only one of icmp|tcp|udp can be defined per rule",
        [SdkCall.updateACL]) ∧
    ([SdkCall.updateACL] : List SdkCall) ≠ [] :=
  ⟨rfl, rfl, by decide⟩

/-- Claim C4, amended: a rule list populating more than one protocol
sub-block makes create and update fail validation and return the
validation error; `nwaclCreate` issues no SDK call at all before the
validation failure, while `nwaclUpdate` issues no rule list/delete/create
call after the failed validation but has already issued the ACL
name-patch update call when the name changed (and its non-fatal tag-sync
calls, not modelled here). -/
theorem acl_rule_validation_before_remote_calls :
    (∀ (vpcId : String) (rules : List InlineRule) (env : CreateEnv)
      (e : String),
      validateInlineRules rules = some e →
      nwaclCreate (some vpcId) rules env = some (.error e, [])) ∧
    (∀ (rules : List InlineRule) (env : UpdateEnv) (e : String)
      (hasChanged : Bool),
      validateInlineRules rules = some e →
      env.updateACLOutcome = none →
      nwaclUpdate rules hasChanged true env =
        some (.error ("validateInlineRules failed: " ++ e),
          if hasChanged then [SdkCall.updateACL] else [])) := by
  constructor
  · intro vpcId rules env e hval
    simp [nwaclCreate, hval]
  · intro rules env e hasChanged hval hupd
    cases hasChanged <;> simp [nwaclUpdate, hval, hupd]

/-- Witness for the amended C4: the conflicting rule makes a concrete
create return the bare validation error with an empty call trace, and a
concrete update with unchanged name return the wrapped validation error
with an empty call trace. -/
theorem acl_rule_validation_before_remote_calls_witness :
    nwaclCreate (some "vpc1") [conflictingRule]
      { createACLOutcome := .ok "acl1", listPages := [],
        deleteRuleOutcome := fun _ => none,
        createRuleOutcome := fun _ => none } =
      some (.error "Only one of icmp|tcp|udp can be defined per rule", []) ∧
    nwaclUpdate [conflictingRule] false true
      { updateACLOutcome := none, listPages := [],
        deleteRuleOutcome := fun _ => none,
        createRuleOutcome := fun _ => none } =
      some (.error
        "validateInlineRules failed: Only one of icmp|tcp|udp can be defined per rule",
        []) := by
  constructor
  · exact acl_rule_validation_before_remote_calls.1 "vpc1" [conflictingRule]
      { createACLOutcome := .ok "acl1", listPages := [],
        deleteRuleOutcome := fun _ => none,
        createRuleOutcome := fun _ => none } _ rfl
  · exact acl_rule_validation_before_remote_calls.2 [conflictingRule]
      { updateACLOutcome := none, listPages := [],
        deleteRuleOutcome := fun _ => none,
        createRuleOutcome := fun _ => none } _ false rfl rfl

/-! ## Read operations and 404 handling

`nwaclGet` (resource_ibm_is_networkacls.go lines 513-680) and
`resourceIBMISBareMetalServerNetworkInterfaceFloatingIpRead` (part_000
lines 437-470).  The observable outcome of a read is: the local id
cleared with no error (`d.SetId("")`, return nil), a diagnostic error, or
the remote record copied into local state (the many successful `d.Set`
field copies are abstracted into the single `stateSet` outcome carrying
the fetched record). -/

/-- Outcome of a read operation on a resource of state type `σ`. -/
inductive ReadOutcome (σ : Type) where
  | cleared
  | failed (msg : String)
  | stateSet (v : σ)
deriving DecidableEq, Repr

/-- The `vpcv1.NetworkACL` record, reduced to representative fields. -/
structure NetworkACL where
  id : String
  name : String
  crn : String
deriving DecidableEq, Repr

/-- The `vpcv1.FloatingIP` record, reduced to representative fields. -/
structure FloatingIP where
  id : String
  name : String
  address : String
  status : String
deriving DecidableEq, Repr

/-- Source function `nwaclGet`: a get failing with HTTP 404 clears the
local id and returns no error; any other get failure is a diagnostic; a
successful get copies the record into state. -/
def nwaclGet (remote : Except ErrResp NetworkACL) : ReadOutcome NetworkACL :=
  match remote with
  | .error e =>
    if e.statusCode = some 404 then
      .cleared
    else
      .failed ("GetNetworkACLWithContext failed: " ++ e.msg)
  | .ok nwacl => .stateSet nwacl

/-- Source function
`resourceIBMISBareMetalServerNetworkInterfaceFloatingIpRead`: parses the
composite terraform id, then fetches the floating IP; a 404 clears the
local id with no error, any other failure is a diagnostic. -/
def resourceIBMISBareMetalServerNetworkInterfaceFloatingIpRead
    (tfId : List Char) (remote : Except ErrResp FloatingIP) :
    ReadOutcome FloatingIP :=
  match ParseNICFipTerraformID tfId with
  | .error e => .failed e
  | .ok _ =>
    match remote with
    | .error e =>
      if e.statusCode = some 404 then
        .cleared
      else
        .failed
          ("GetBareMetalServerNetworkInterfaceFloatingIPWithContext failed: "
            ++ e.msg)
    | .ok fip => .stateSet fip

/-- Claim C5: for the network-ACL read and the bare-metal-server NIC
floating-IP read, a remote get failing with HTTP 404 clears the local
identifier and returns no error, while any other remote failure returns
an error. -/
theorem read_404_clears_local_id :
    (∀ e : ErrResp, e.statusCode = some 404 →
      nwaclGet (.error e) = .cleared) ∧
    (∀ e : ErrResp, e.statusCode ≠ some 404 →
      nwaclGet (.error e) =
        .failed ("GetNetworkACLWithContext failed: " ++ e.msg)) ∧
    (∀ (tfId : List Char) (p : List Char × List Char × List Char)
      (e : ErrResp),
      ParseNICFipTerraformID tfId = .ok p →
      e.statusCode = some 404 →
      resourceIBMISBareMetalServerNetworkInterfaceFloatingIpRead tfId
        (.error e) = .cleared) ∧
    (∀ (tfId : List Char) (p : List Char × List Char × List Char)
      (e : ErrResp),
      ParseNICFipTerraformID tfId = .ok p →
      e.statusCode ≠ some 404 →
      resourceIBMISBareMetalServerNetworkInterfaceFloatingIpRead tfId
        (.error e) =
        .failed
          ("GetBareMetalServerNetworkInterfaceFloatingIPWithContext failed: "
            ++ e.msg)) := by
  refine ⟨fun e he => ?_, fun e he => ?_,
    fun tfId p e hp he => ?_, fun tfId p e hp he => ?_⟩
  · simp [nwaclGet, he]
  · simp [nwaclGet, he]
  · simp [resourceIBMISBareMetalServerNetworkInterfaceFloatingIpRead, hp, he]
  · simp [resourceIBMISBareMetalServerNetworkInterfaceFloatingIpRead, hp, he]

/-- Witness for C5 at concrete inputs: a 404 and a 500 on both reads,
with the concrete composite id `"s/n/f"`. -/
theorem read_404_clears_local_id_witness :
    nwaclGet (.error ⟨some 404, "not found"⟩) = .cleared ∧
    nwaclGet (.error ⟨some 500, "boom"⟩) =
      .failed "GetNetworkACLWithContext failed: boom" ∧
    resourceIBMISBareMetalServerNetworkInterfaceFloatingIpRead
      ['s', '/', 'n', '/', 'f'] (.error ⟨some 404, "not found"⟩) = .cleared ∧
    resourceIBMISBareMetalServerNetworkInterfaceFloatingIpRead
      ['s', '/', 'n', '/', 'f'] (.error ⟨some 500, "boom"⟩) =
      .failed
        "GetBareMetalServerNetworkInterfaceFloatingIPWithContext failed: boom" := by
  refine ⟨read_404_clears_local_id.1 ⟨some 404, "not found"⟩ rfl,
    read_404_clears_local_id.2.1 ⟨some 500, "boom"⟩ (by decide), ?_, ?_⟩
  · exact read_404_clears_local_id.2.2.1 ['s', '/', 'n', '/', 'f']
      (['s'], ['n'], ['f']) ⟨some 404, "not found"⟩ rfl rfl
  · exact read_404_clears_local_id.2.2.2 ['s', '/', 'n', '/', 'f']
      (['s'], ['n'], ['f']) ⟨some 500, "boom"⟩ rfl (by decide)

end TfIbm
